import Mathlib

/-!
Verification of the psycopg3 value-adaptation and COPY layer.

Byte sequences are modelled as `List Nat` (each element a byte value < 256);
Python strings are modelled as `List Nat` of Unicode scalar values.
-/

namespace Psycopg3

/-- Unicode scalar value: a codepoint below 0x110000 that is not a surrogate. -/
def ValidScalar (c : Nat) : Prop :=
  c < 0x110000 ∧ (c < 0xD800 ∨ 0xE000 ≤ c)

instance (c : Nat) : Decidable (ValidScalar c) := by
  unfold ValidScalar; infer_instance

/-- Every codepoint of the string is a Unicode scalar value. -/
def ValidStr (s : List Nat) : Prop := ∀ c ∈ s, ValidScalar c

instance (s : List Nat) : Decidable (ValidStr s) := by
  unfold ValidStr; infer_instance

/-- UTF-8 encoding of a single Unicode scalar value (1 to 4 bytes). -/
def utf8EncodeChar (c : Nat) : List Nat :=
  if c < 0x80 then [c]
  else if c < 0x800 then [0xC0 + c / 64, 0x80 + c % 64]
  else if c < 0x10000 then
    [0xE0 + c / 4096, 0x80 + (c / 64) % 64, 0x80 + c % 64]
  else
    [0xF0 + c / 262144, 0x80 + (c / 4096) % 64, 0x80 + (c / 64) % 64, 0x80 + c % 64]

/-- UTF-8 encoding of a whole string. -/
def utf8Encode (s : List Nat) : List Nat := (s.map utf8EncodeChar).flatten

/-- Decode one UTF-8 sequence from the front of a byte list, rejecting
truncated sequences, bad continuation bytes, overlong forms, surrogates and
out-of-range codepoints (as Python's strict utf-8 decoder does). -/
def utf8DecodeChar : List Nat → Option (Nat × List Nat)
  | [] => none
  | b0 :: rest =>
    if b0 < 0x80 then some (b0, rest)
    else if b0 < 0xC2 then none
    else if b0 < 0xE0 then
      match rest with
      | b1 :: rest1 =>
        if 0x80 ≤ b1 ∧ b1 < 0xC0 then
          some ((b0 - 0xC0) * 64 + (b1 - 0x80), rest1)
        else none
      | _ => none
    else if b0 < 0xF0 then
      match rest with
      | b1 :: b2 :: rest2 =>
        if 0x80 ≤ b1 ∧ b1 < 0xC0 ∧ 0x80 ≤ b2 ∧ b2 < 0xC0 then
          let c := (b0 - 0xE0) * 4096 + (b1 - 0x80) * 64 + (b2 - 0x80)
          if c < 0x800 ∨ (0xD800 ≤ c ∧ c < 0xE000) then none else some (c, rest2)
        else none
      | _ => none
    else if b0 < 0xF5 then
      match rest with
      | b1 :: b2 :: b3 :: rest3 =>
        if 0x80 ≤ b1 ∧ b1 < 0xC0 ∧ 0x80 ≤ b2 ∧ b2 < 0xC0 ∧ 0x80 ≤ b3 ∧ b3 < 0xC0 then
          let c := (b0 - 0xF0) * 262144 + (b1 - 0x80) * 4096
                   + (b2 - 0x80) * 64 + (b3 - 0x80)
          if c < 0x10000 ∨ 0x110000 ≤ c then none else some (c, rest3)
        else none
      | _ => none
    else none

/-- Fuelled worker for the whole-string UTF-8 decoder. -/
def utf8DecodeAux : Nat → List Nat → Option (List Nat)
  | _, [] => some []
  | 0, _ :: _ => none
  | fuel + 1, bs =>
    match utf8DecodeChar bs with
    | none => none
    | some (c, rest) =>
      match utf8DecodeAux fuel rest with
      | none => none
      | some s => some (c :: s)

/-- Decode a byte list as UTF-8, or fail (Python `bytes.decode` raising). -/
def utf8Decode (bs : List Nat) : Option (List Nat) := utf8DecodeAux bs.length bs

/-- Decode a byte list as ASCII: every byte below 0x80 maps to itself. -/
def asciiDecode : List Nat → Option (List Nat)
  | [] => some []
  | b :: bs =>
    if b < 0x80 then (asciiDecode bs).map (b :: ·) else none

/-- Client text encodings relevant to the codecs under verification. -/
inductive PyEncoding where
  | utf8
  | ascii
  | latin1
deriving DecidableEq, Repr

/-- Encode one codepoint under an encoding, or fail (UnicodeEncodeError). -/
def pyEncodeChar : PyEncoding → Nat → Option (List Nat)
  | .utf8, c => if ValidScalar c then some (utf8EncodeChar c) else none
  | .ascii, c => if c < 0x80 then some [c] else none
  | .latin1, c => if c < 0x100 then some [c] else none

/-- Python `str.encode(enc)`: encode every codepoint or fail. -/
def encodeStr (enc : PyEncoding) : List Nat → Option (List Nat)
  | [] => some []
  | c :: cs =>
    match pyEncodeChar enc c, encodeStr enc cs with
    | some b, some bs => some (b ++ bs)
    | _, _ => none

/-- Decode a byte list as Latin-1: every byte maps to the same codepoint. -/
def latin1Decode : List Nat → Option (List Nat)
  | [] => some []
  | b :: bs =>
    if b < 0x100 then (latin1Decode bs).map (b :: ·) else none

/-- Python `bytes.decode(enc)`: decode or fail (UnicodeDecodeError). -/
def decodeBytes : PyEncoding → List Nat → Option (List Nat)
  | .utf8, bs => utf8Decode bs
  | .ascii, bs => asciiDecode bs
  | .latin1, bs => latin1Decode bs

/-- Connection state visible to the adapters: the client encoding. -/
structure Conn where
  client_encoding : PyEncoding
deriving DecidableEq, Repr

/-- Errors a dumper can raise. -/
inductive DumpError where
  | dataError (msg : String)
  | unicodeEncodeError
deriving DecidableEq, Repr

/-- Encoding selection of `_StringDumper.__init__` (types/text.py:19-30):
the default is utf-8; a connection's client encoding overrides it only when
it is not "ascii". -/
def stringDumperEncoding : Option Conn → PyEncoding
  | none => .utf8
  | some conn =>
    if conn.client_encoding = .ascii then .utf8 else conn.client_encoding

/-- `StringBinaryDumper.dump` (types/text.py:33-37): encode with the
selected encoding; NUL codepoints pass through (the server checks them). -/
def StringBinaryDumper.dump (enc : PyEncoding) (obj : List Nat) :
    Except DumpError (List Nat) :=
  match encodeStr enc obj with
  | some bs => .ok bs
  | none => .error .unicodeEncodeError

/-- `StringDumper.dump` (types/text.py:40-48): raise DataError if the string
contains a NUL codepoint, otherwise encode with the selected encoding. -/
def StringDumper.dump (enc : PyEncoding) (obj : List Nat) :
    Except DumpError (List Nat) :=
  if 0 ∈ obj then
    .error (.dataError "PostgreSQL text fields cannot contain NUL (0x00) bytes")
  else
    match encodeStr enc obj with
    | some bs => .ok bs
    | none => .error .unicodeEncodeError

/-- Encoding selection of `TextLoader.__init__` (types/text.py:60-65):
default utf-8; with a connection, the client encoding, except that "ascii"
is recorded as the empty encoding (`none` here), meaning raw-bytes mode. -/
def textLoaderEncoding : Option Conn → Option PyEncoding
  | none => some .utf8
  | some conn =>
    if conn.client_encoding = .ascii then none else some conn.client_encoding

/-- Result of `TextLoader.load`: either decoded text or the raw bytes. -/
inductive LoadResult where
  | str (s : List Nat)
  | bytes (b : List Nat)
deriving DecidableEq, Repr

/-- Errors a loader can raise. -/
inductive LoadError where
  | unicodeDecodeError
deriving DecidableEq, Repr

/-- `TextLoader.load` (types/text.py:67-72): decode when an encoding is
recorded, otherwise return the raw bytes (SQL_ASCII database). -/
def TextLoader.load (enc : Option PyEncoding) (data : List Nat) :
    Except LoadError LoadResult :=
  match enc with
  | some e =>
    match decodeBytes e data with
    | some s => .ok (.str s)
    | none => .error .unicodeDecodeError
  | none => .ok (.bytes data)

/-- Encoding selection of `UnknownLoader.__init__` (types/text.py:83-87):
default utf-8; with a connection, the client encoding verbatim — no special
case for "ascii". -/
def unknownLoaderEncoding : Option Conn → PyEncoding
  | none => .utf8
  | some conn => conn.client_encoding

/-- `UnknownLoader.load` (types/text.py:89-90): always decode with the
recorded encoding; a decode failure is a hard error, never raw bytes. -/
def UnknownLoader.load (enc : PyEncoding) (data : List Nat) :
    Except LoadError (List Nat) :=
  match decodeBytes enc data with
  | some s => .ok s
  | none => .error .unicodeDecodeError

/-- `BytesBinaryDumper.dump` (types/text.py:119-123): the identity. -/
def BytesBinaryDumper.dump (obj : List Nat) : List Nat := obj

/-- `ByteaBinaryLoader.load` (types/text.py:142-143): the identity. -/
def ByteaBinaryLoader.load (data : List Nat) : List Nat := data

/-- ASCII code of the hex digit for a value below 16 (lowercase). -/
def hexDigitChar (n : Nat) : Nat := if n < 10 then 48 + n else 87 + n

/-- Modelled from the spec: the Escaping Helper's `escape(bytes)` entry point
(the `pq.Escaping.escape_bytea` implementation is not under src/; spec 4.3/4.4
describes the server's blob-literal quoting, C-style octal/hex escaping).
Hex convention: a backslash-x prefix then two lowercase hex digits per byte. -/
def escape_bytea (bs : List Nat) : List Nat :=
  92 :: 120 :: (bs.map (fun b => [hexDigitChar (b / 16), hexDigitChar (b % 16)])).flatten

/-- Numeric value of an ASCII hex digit, if it is one. -/
def hexVal (c : Nat) : Option Nat :=
  if 48 ≤ c ∧ c ≤ 57 then some (c - 48)
  else if 97 ≤ c ∧ c ≤ 102 then some (c - 87)
  else if 65 ≤ c ∧ c ≤ 70 then some (c - 55)
  else none

/-- Parse a sequence of hex-digit pairs into bytes. -/
def unhexPairs : List Nat → Option (List Nat)
  | [] => some []
  | [_] => none
  | c1 :: c2 :: rest =>
    match hexVal c1, hexVal c2, unhexPairs rest with
    | some h, some l, some bs => some ((h * 16 + l) :: bs)
    | _, _, _ => none

/-- Unescape the octal blob-literal convention: a backslash followed by
three octal digits denotes that byte, a doubled backslash denotes one
backslash, any other byte denotes itself. -/
def octalUnescape : List Nat → Option (List Nat)
  | [] => some []
  | 92 :: 92 :: rest => (octalUnescape rest).map (92 :: ·)
  | 92 :: d1 :: d2 :: d3 :: rest =>
    if 48 ≤ d1 ∧ d1 ≤ 51 ∧ 48 ≤ d2 ∧ d2 ≤ 55 ∧ 48 ≤ d3 ∧ d3 ≤ 55 then
      (octalUnescape rest).map (((d1 - 48) * 64 + (d2 - 48) * 8 + (d3 - 48)) :: ·)
    else none
  | 92 :: _ => none
  | b :: rest => (octalUnescape rest).map (b :: ·)

/-- Modelled from the spec: the Escaping Helper's `unescape(wire_literal)`
entry point (the `pq.Escaping.unescape_bytea` implementation is not under
src/; spec 4.4 makes it the inverse of the encode-side quoting). Input with
the backslash-x prefix is hex-decoded, otherwise octal-unescaped. -/
def unescape_bytea (data : List Nat) : Option (List Nat) :=
  match data with
  | 92 :: 120 :: rest => unhexPairs rest
  | other => octalUnescape other

/-- `BytesDumper.dump` (types/text.py:106-109): escape through the
Escaping Helper. -/
def BytesDumper.dump (obj : List Nat) : List Nat := escape_bytea obj

/-- `ByteaLoader.load` (types/text.py:135-136): unescape through the shared
Escaping Helper. -/
def ByteaLoader.load (data : List Nat) : Option (List Nat) :=
  unescape_bytea data

/-- Wire format of a value or COPY session. -/
inductive Format where
  | TEXT
  | BINARY
deriving DecidableEq, Repr

/-- The unknown/sentinel TypeIdentifier (oids.py INVALID_OID). -/
def INVALID_OID : Nat := 0

/-- The loader classes registered in types/text.py. -/
inductive LoaderClass where
  | textLoaderC
  | unknownLoaderC
  | byteaLoaderC
  | byteaBinaryLoaderC
deriving DecidableEq, Repr

/-- Loader registrations made by the decorators of types/text.py
(oids: text 25, varchar 1043, name 19, bpchar 1042, bytea 17). -/
def loaderRegistrations : List ((Nat × Format) × LoaderClass) :=
  [((25, .TEXT), .textLoaderC), ((25, .BINARY), .textLoaderC),
   ((1043, .TEXT), .textLoaderC), ((1043, .BINARY), .textLoaderC),
   ((INVALID_OID, .TEXT), .textLoaderC),
   ((19, .TEXT), .unknownLoaderC), ((19, .BINARY), .unknownLoaderC),
   ((1042, .TEXT), .unknownLoaderC), ((1042, .BINARY), .unknownLoaderC),
   ((17, .TEXT), .byteaLoaderC),
   ((17, .BINARY), .byteaBinaryLoaderC),
   ((INVALID_OID, .BINARY), .byteaBinaryLoaderC)]

/-- Resolve the loader class for a (TypeIdentifier, Format) key. -/
def lookupLoader (oid : Nat) (fmt : Format) : Option LoaderClass :=
  (loaderRegistrations.find? (fun r => r.1 = (oid, fmt))).map (·.2)

/-- An Escaping Helper object, tagged by its construction number so that
distinct constructions are distinguishable. -/
structure Escaping where
  ctorId : Nat
deriving DecidableEq, Repr

/-- Class-level state of `ByteaLoader`: the `_escaping` class attribute
(absent until first set) and a count of `Escaping()` constructions made. -/
structure ByteaLoaderClassState where
  escaping : Option Escaping
  numCreated : Nat
deriving DecidableEq, Repr

/-- The class state before any `ByteaLoader` is constructed: the
`_escaping` annotation declares no attribute, so it is absent. -/
def initialClassState : ByteaLoaderClassState := ⟨none, 0⟩

/-- A constructed `ByteaLoader` instance carries the Escaping it will use. -/
structure ByteaLoaderInstance where
  esc : Escaping
deriving DecidableEq, Repr

/-- `ByteaLoader.__init__` (types/text.py:130-133): if the class has no
`_escaping` attribute yet, set it to a fresh `Escaping()`; the instance then
uses the class-level `_escaping`. -/
def ByteaLoader.construct (st : ByteaLoaderClassState) :
    ByteaLoaderInstance × ByteaLoaderClassState :=
  match st.escaping with
  | some e => (⟨e⟩, st)
  | none =>
    let e : Escaping := ⟨st.numCreated⟩
    (⟨e⟩, ⟨some e, st.numCreated + 1⟩)

/-- Construct `n` ByteaLoader instances in sequence, threading class state. -/
def constructLoaders : Nat → ByteaLoaderClassState →
    List ByteaLoaderInstance × ByteaLoaderClassState
  | 0, st => ([], st)
  | n + 1, st =>
    let (inst, st1) := ByteaLoader.construct st
    let (rest, st2) := constructLoaders n st1
    (inst :: rest, st2)

/-- Server-reported transaction status of the connection. -/
inductive TransactionStatus where
  | IDLE
  | INTRANS
  | INERROR
deriving DecidableEq, Repr

/-- The connection state the Copy Stream Controller touches. -/
structure CopyConn where
  transaction_status : TransactionStatus
deriving DecidableEq, Repr

/-- Lifecycle state of a COPY session (spec 4.5). -/
inductive SessionState where
  | OPEN
  | FINALIZED
deriving DecidableEq, Repr

/-- A COPY-IN session as seen by the error-finalization path. -/
structure CopyInSession where
  state : SessionState
deriving DecidableEq, Repr

/-- An error with a category code and a message (byte list). -/
structure PgError where
  code : Nat
  msg : List Nat
deriving DecidableEq, Repr

/-- Outcome of finalizing a COPY-IN session on a caller error. -/
structure AbortOutcome where
  conn : CopyConn
  session : CopyInSession
  raised : PgError
deriving DecidableEq, Repr

/-- Modelled from the spec: the Copy Stream Controller's error-finalization
path (the controller's source is not under src/, only its tests; spec 4.5).
On a caller error while the session is OPEN: send the abort signal carrying
the local error's message, drain pending results, leave the transaction
marked failed, finalize the session exactly once, and re-raise the original
error — unless draining reveals a server-side error, which takes precedence
with the local message embedded in its message. `serverErr` is the
server-side error the abort reveals, if any. -/
def finalizeOnError (_conn : CopyConn) (_sess : CopyInSession)
    (localErr : PgError) (serverErr : Option PgError) : AbortOutcome :=
  let raised : PgError :=
    match serverErr with
    | none => localErr
    | some e => { code := e.code, msg := e.msg ++ localErr.msg }
  { conn := { transaction_status := .INERROR },
    session := { state := .FINALIZED },
    raised := raised }

/-- A COPY-OUT session: the blocks the transport has yet to deliver. -/
structure CopyOutSession where
  pending : List (List Nat)
deriving DecidableEq, Repr

/-- Modelled from the spec: `read()` of the Copy Stream Controller (the
controller's source is not under src/, only its tests; spec 4.5). Return the
next transport-delivered block, or an empty result once exhausted; reading
an exhausted session keeps returning empty. -/
def CopyOutSession.read : CopyOutSession → List Nat × CopyOutSession
  | ⟨[]⟩ => ([], ⟨[]⟩)
  | ⟨b :: rest⟩ => (b, ⟨rest⟩)

/-- The results of `n` successive `read()` calls. -/
def readOutputs : Nat → CopyOutSession → List (List Nat)
  | 0, _ => []
  | n + 1, s =>
    let (b, s1) := s.read
    b :: readOutputs n s1

/-- Fuelled worker for iteration: call `read()` and yield the block until an
empty result signals exhaustion. -/
def iterBlocksAux : Nat → CopyOutSession → List (List Nat)
  | 0, _ => []
  | fuel + 1, s =>
    let (b, s1) := s.read
    if b = [] then [] else b :: iterBlocksAux fuel s1

/-- Modelled from the spec: iterating a COPY-OUT session is repeated
`read()` until exhaustion, yielding each non-empty block (spec 4.5). -/
def CopyOutSession.iterBlocks (s : CopyOutSession) : List (List Nat) :=
  iterBlocksAux (s.pending.length + 1) s

/-- Fuelled decimal digit writer (most significant digit first). -/
def decimalDigitsAux : Nat → Nat → List Nat
  | 0, _ => []
  | fuel + 1, n =>
    if n < 10 then [48 + n] else decimalDigitsAux fuel (n / 10) ++ [48 + n % 10]

/-- ASCII decimal representation of a natural number. -/
def decimalBytes (n : Nat) : List Nat := decimalDigitsAux (n + 1) n

/-- Big-endian 2-byte representation of a value below 2^16. -/
def be16 (n : Nat) : List Nat := [n / 256 % 256, n % 256]

/-- Big-endian 4-byte representation of a value below 2^32. -/
def be32 (n : Nat) : List Nat :=
  [n / 16777216 % 256, n / 65536 % 256, n / 256 % 256, n % 256]

/-- A row field value of the COPY scenario: an int4 or a text string. -/
inductive Value where
  | int4 (i : Int)
  | str (s : List Nat)
deriving DecidableEq, Repr

/-- Modelled from the spec: TEXT-format dump of a field value (the Int4
dumper of types/numeric.py is not under src/; its wire form is the ASCII
decimal seen in the spec's concrete scenario, and the string dumper is
`StringDumper` under the utf-8 context). -/
def dumpValueText : Value → List Nat
  | .int4 i => if i < 0 then 45 :: decimalBytes i.natAbs else decimalBytes i.toNat
  | .str s => utf8Encode s

/-- Modelled from the spec: BINARY-format dump of a field value (the Int4
binary dumper of types/numeric.py is not under src/; int4 is a 4-byte
big-endian two's-complement value, and the string dumper is
`StringBinaryDumper` under the utf-8 context). -/
def dumpValueBinary : Value → List Nat
  | .int4 i => be32 (i % 4294967296).toNat
  | .str s => utf8Encode s

/-- The two-character SQL-NULL token of the TEXT format: backslash-N. -/
def NULL_TOKEN : List Nat := [92, 78]

/-- Modelled from the spec: `write_row` framing for a TEXT-format COPY-IN
row (the controller's source is not under src/; spec 4.5/6): tab-separated
dumped fields, SQL-NULL as the two-character token, one line break. -/
def formatRowText (row : List (Option Value)) : List Nat :=
  (List.intercalate [9]
    (row.map (fun f =>
      match f with
      | none => NULL_TOKEN
      | some v => dumpValueText v))) ++ [10]

/-- Modelled from the spec: `write_row` framing for a BINARY-format COPY-IN
row (spec 4.5/6): 2-byte field count, then per field a 4-byte big-endian
length and the dumped bytes, or the length sentinel -1 (0xFFFFFFFF) for
SQL-NULL with no data bytes. -/
def formatRowBinary (row : List (Option Value)) : List Nat :=
  be16 row.length ++
    (row.map (fun f =>
      match f with
      | none => [255, 255, 255, 255]
      | some v =>
        let bs := dumpValueBinary v
        be32 bs.length ++ bs)).flatten

/-- The 11-byte binary-COPY signature: "PGCOPY", newline, 0xFF, CR, LF, NUL. -/
def binarySignature : List Nat := [80, 71, 67, 79, 80, 89, 10, 255, 13, 10, 0]

/-- Modelled from the spec: the binary-COPY file header (spec 6): signature,
4-byte flags, 4-byte header-extension length, extension empty. -/
def binaryHeader : List Nat := binarySignature ++ be32 0 ++ be32 0

/-- Modelled from the spec: the binary-COPY trailer, field-count -1. -/
def binaryTrailer : List Nat := [255, 255]

/-- Full TEXT-format COPY-IN payload of a list of rows. -/
def copyInTextPayload (rows : List (List (Option Value))) : List Nat :=
  (rows.map formatRowText).flatten

/-- Full BINARY-format COPY-IN payload of a list of rows: header, one frame
per row, trailer. -/
def copyInBinaryPayload (rows : List (List (Option Value))) : List Nat :=
  binaryHeader ++ (rows.map formatRowBinary).flatten ++ binaryTrailer

/-- The two sample rows (10, 20, 'hello') and (40, NULL, 'world'). -/
def sampleRecords : List (List (Option Value)) :=
  [[some (.int4 10), some (.int4 20), some (.str [104, 101, 108, 108, 111])],
   [some (.int4 40), none, some (.str [119, 111, 114, 108, 100])]]

/-- The caller-visible cursor state the COPY path updates. -/
structure Cursor where
  rowcount : Int
deriving DecidableEq, Repr

/-- Modelled from the spec: row-count bookkeeping of a COPY operation (the
controller's source is not under src/, only its tests; spec 4.5). Starting an
operation resets the row-count to the "not applicable" sentinel -1; a COPY
whose session is consummated and finishes successfully stores the
server-reported affected-row count; a request rejected before the session is
consummated leaves the sentinel in place. `start` is the server's answer to
the COPY request, `serverReported` the affected-row count of the final
command-completion result. -/
def executeCopy (cur : Cursor) (start : Except PgError Unit)
    (serverReported : Nat) : Cursor × Option PgError :=
  let cur1 : Cursor := { cur with rowcount := -1 }
  match start with
  | .error e => (cur1, some e)
  | .ok _ => ({ cur1 with rowcount := Int.ofNat serverReported }, none)

/-! Lemmas about the UTF-8 codec. -/

theorem utf8EncodeChar_ne_nil (c : Nat) : utf8EncodeChar c ≠ [] := by
  unfold utf8EncodeChar
  repeat' split
  all_goals simp

theorem utf8DecodeChar_encodeChar (c : Nat) (h : ValidScalar c)
    (rest : List Nat) :
    utf8DecodeChar (utf8EncodeChar c ++ rest) = some (c, rest) := by
  obtain ⟨h1, h2⟩ := h
  by_cases hc1 : c < 0x80
  · simp [utf8EncodeChar, utf8DecodeChar, hc1]
  · by_cases hc2 : c < 0x800
    · have e1 : utf8EncodeChar c = [0xC0 + c / 64, 0x80 + c % 64] := by
        simp [utf8EncodeChar, hc1, hc2]
      have hb0a : ¬ (0xC0 + c / 64 < 0x80) := by omega
      have hb0b : ¬ (0xC0 + c / 64 < 0xC2) := by omega
      have hb0c : 0xC0 + c / 64 < 0xE0 := by omega
      have hb1 : 0x80 ≤ 0x80 + c % 64 ∧ 0x80 + c % 64 < 0xC0 := by omega
      have hv : (0xC0 + c / 64 - 0xC0) * 64 + (0x80 + c % 64 - 0x80) = c := by
        omega
      rw [e1]
      simp [utf8DecodeChar, hb0a, hb0b, hb0c, hb1, hv]
      omega
    · by_cases hc3 : c < 0x10000
      · have e1 : utf8EncodeChar c =
            [0xE0 + c / 4096, 0x80 + (c / 64) % 64, 0x80 + c % 64] := by
          simp [utf8EncodeChar, hc1, hc2, hc3]
        have hb0a : ¬ (0xE0 + c / 4096 < 0x80) := by omega
        have hb0b : ¬ (0xE0 + c / 4096 < 0xC2) := by omega
        have hb0c : ¬ (0xE0 + c / 4096 < 0xE0) := by omega
        have hb0d : 0xE0 + c / 4096 < 0xF0 := by omega
        have hb1 : 0x80 ≤ 0x80 + (c / 64) % 64 ∧ 0x80 + (c / 64) % 64 < 0xC0 ∧
            0x80 ≤ 0x80 + c % 64 ∧ 0x80 + c % 64 < 0xC0 := by omega
        have hv : (0xE0 + c / 4096 - 0xE0) * 4096
            + (0x80 + (c / 64) % 64 - 0x80) * 64 + (0x80 + c % 64 - 0x80) = c := by
          omega
        have hno : ¬ (c < 0x800 ∨ (0xD800 ≤ c ∧ c < 0xE000)) := by omega
        rw [e1]
        simp only [List.cons_append, List.nil_append, utf8DecodeChar]
        rw [if_neg hb0a, if_neg hb0b, if_neg hb0c, if_pos hb0d, if_pos hb1]
        simp only [hv]
        rw [if_neg hno]
      · have e1 : utf8EncodeChar c =
            [0xF0 + c / 262144, 0x80 + (c / 4096) % 64,
             0x80 + (c / 64) % 64, 0x80 + c % 64] := by
          simp [utf8EncodeChar, hc1, hc2, hc3]
        have hb0a : ¬ (0xF0 + c / 262144 < 0x80) := by omega
        have hb0b : ¬ (0xF0 + c / 262144 < 0xC2) := by omega
        have hb0c : ¬ (0xF0 + c / 262144 < 0xE0) := by omega
        have hb0d : ¬ (0xF0 + c / 262144 < 0xF0) := by omega
        have hb0e : 0xF0 + c / 262144 < 0xF5 := by omega
        have hb1 : 0x80 ≤ 0x80 + (c / 4096) % 64 ∧ 0x80 + (c / 4096) % 64 < 0xC0 ∧
            0x80 ≤ 0x80 + (c / 64) % 64 ∧ 0x80 + (c / 64) % 64 < 0xC0 ∧
            0x80 ≤ 0x80 + c % 64 ∧ 0x80 + c % 64 < 0xC0 := by omega
        have hv : (0xF0 + c / 262144 - 0xF0) * 262144
            + (0x80 + (c / 4096) % 64 - 0x80) * 4096
            + (0x80 + (c / 64) % 64 - 0x80) * 64 + (0x80 + c % 64 - 0x80) = c := by
          omega
        have hno : ¬ (c < 0x10000 ∨ 0x110000 ≤ c) := by omega
        rw [e1]
        simp only [List.cons_append, List.nil_append, utf8DecodeChar]
        rw [if_neg hb0a, if_neg hb0b, if_neg hb0c, if_neg hb0d, if_pos hb0e,
          if_pos hb1]
        simp only [hv]
        rw [if_neg hno]

theorem utf8DecodeAux_encode (s : List Nat) : ∀ fuel, ValidStr s →
    (utf8Encode s).length ≤ fuel →
    utf8DecodeAux fuel (utf8Encode s) = some s := by
  induction s with
  | nil =>
    intro fuel _ _
    cases fuel <;> simp [utf8Encode, utf8DecodeAux]
  | cons c s ih =>
    intro fuel hv hlen
    have hvc : ValidScalar c := hv c (by simp)
    have hvs : ValidStr s := fun x hx => hv x (by simp [hx])
    have henc : utf8Encode (c :: s) = utf8EncodeChar c ++ utf8Encode s := by
      simp [utf8Encode]
    have hne : utf8EncodeChar c ≠ [] := utf8EncodeChar_ne_nil c
    have hlen1 : 1 ≤ (utf8EncodeChar c).length := by
      cases h : utf8EncodeChar c with
      | nil => exact absurd h hne
      | cons b bs => simp
    rw [henc] at hlen ⊢
    rw [List.length_append] at hlen
    cases fuel with
    | zero => omega
    | succ f =>
      have hd : utf8DecodeChar (utf8EncodeChar c ++ utf8Encode s)
          = some (c, utf8Encode s) := utf8DecodeChar_encodeChar c hvc _
      cases h : utf8EncodeChar c with
      | nil => exact absurd h hne
      | cons b bs =>
        rw [h, List.cons_append] at hd
        simp only [List.cons_append, utf8DecodeAux, List.append_eq]
        rw [hd]
        simp [ih f hvs (by omega)]

theorem utf8Decode_encode (s : List Nat) (hv : ValidStr s) :
    utf8Decode (utf8Encode s) = some s :=
  utf8DecodeAux_encode s (utf8Encode s).length hv le_rfl

theorem encodeStr_utf8_eq (s : List Nat) (hv : ValidStr s) :
    encodeStr .utf8 s = some (utf8Encode s) := by
  induction s with
  | nil => simp [encodeStr, utf8Encode]
  | cons c s ih =>
    have hvc : ValidScalar c := hv c (by simp)
    have hvs : ValidStr s := fun x hx => hv x (by simp [hx])
    simp [encodeStr, pyEncodeChar, hvc, ih hvs, utf8Encode]

/-! Lemmas about the blob-literal escaping. -/

theorem hexVal_hexDigitChar (n : Nat) (h : n < 16) :
    hexVal (hexDigitChar n) = some n := by
  interval_cases n <;> decide

theorem unhexPairs_hexpairs (bs : List Nat) (h : ∀ b ∈ bs, b < 256) :
    unhexPairs
      ((bs.map (fun b => [hexDigitChar (b / 16), hexDigitChar (b % 16)])).flatten)
      = some bs := by
  induction bs with
  | nil => simp [unhexPairs]
  | cons b bs ih =>
    have hb : b < 256 := h b (by simp)
    have h1 := hexVal_hexDigitChar (b / 16) (by omega)
    have h2 := hexVal_hexDigitChar (b % 16) (by omega)
    have h3 := ih (fun x hx => h x (by simp [hx]))
    simp only [List.map_cons, List.flatten_cons, List.cons_append,
      List.append_eq, List.nil_append, unhexPairs, h1, h2, h3]
    have hbv : b / 16 * 16 + b % 16 = b := by omega
    rw [hbv]

theorem unescape_escape (bs : List Nat) (h : ∀ b ∈ bs, b < 256) :
    unescape_bytea (escape_bytea bs) = some bs := by
  simp [escape_bytea, unescape_bytea, unhexPairs_hexpairs bs h]

/-! Lemmas about the shared ByteaLoader Escaping Helper. -/

theorem constructLoaders_cached (n : Nat) (e : Escaping) (k : Nat) :
    constructLoaders n ⟨some e, k⟩ = (List.replicate n ⟨e⟩, ⟨some e, k⟩) := by
  induction n with
  | zero => simp [constructLoaders]
  | succ n ih =>
    simp [constructLoaders, ByteaLoader.construct, ih, List.replicate]

/-! Lemmas about COPY-OUT reads. -/

theorem readOutputs_exhausted (n : Nat) :
    readOutputs n ⟨[]⟩ = List.replicate n [] := by
  induction n with
  | zero => simp [readOutputs]
  | succ n ih => simp [readOutputs, CopyOutSession.read, ih, List.replicate]

theorem readOutputs_pending (p : List (List Nat)) (k : Nat) :
    readOutputs (p.length + k) ⟨p⟩ = p ++ List.replicate k [] := by
  induction p with
  | nil => simp [readOutputs_exhausted]
  | cons b p ih =>
    have hl : (b :: p).length + k = (p.length + k) + 1 := by
      simp [List.length_cons]; omega
    rw [hl]
    simp only [readOutputs, CopyOutSession.read, ih, List.cons_append]

theorem iterBlocksAux_pending (p : List (List Nat)) : ∀ fuel,
    (∀ b ∈ p, b ≠ []) → p.length < fuel → iterBlocksAux fuel ⟨p⟩ = p := by
  induction p with
  | nil =>
    intro fuel _ hf
    cases fuel with
    | zero => omega
    | succ f => simp [iterBlocksAux, CopyOutSession.read]
  | cons b p ih =>
    intro fuel hne hf
    cases fuel with
    | zero => omega
    | succ f =>
      have hb : b ≠ [] := hne b (by simp)
      have hrec := ih f (fun x hx => hne x (by simp [hx]))
        (by simp only [List.length_cons] at hf; omega)
      simp [iterBlocksAux, CopyOutSession.read, hb, hrec]

theorem iterBlocks_pending (s : CopyOutSession)
    (h : ∀ b ∈ s.pending, b ≠ []) : s.iterBlocks = s.pending := by
  obtain ⟨p⟩ := s
  exact iterBlocksAux_pending p (p.length + 1) h (by omega)

/-! The claims. -/

/-- C1: for every string containing a NUL codepoint, the TEXT-format string
dump (`StringDumper.dump`) raises DataError before producing bytes, while
the BINARY-format dump (`StringBinaryDumper.dump`) under the same (default
utf-8) encoding context succeeds, and loading the produced bytes through
`TextLoader.load` under the same encoding returns the original string. -/
theorem claim_C1 (s : List Nat) (hv : ValidStr s) (hnul : 0 ∈ s) :
    StringDumper.dump (stringDumperEncoding none) s =
      .error (.dataError
        "PostgreSQL text fields cannot contain NUL (0x00) bytes") ∧
    StringBinaryDumper.dump (stringDumperEncoding none) s
      = .ok (utf8Encode s) ∧
    TextLoader.load (textLoaderEncoding none) (utf8Encode s)
      = .ok (.str s) := by
  refine ⟨?_, ?_, ?_⟩
  · simp [StringDumper.dump, hnul]
  · simp [StringBinaryDumper.dump, stringDumperEncoding,
      encodeStr_utf8_eq s hv]
  · simp [TextLoader.load, textLoaderEncoding, decodeBytes,
      utf8Decode_encode s hv]

/-- Witness for C1 at the concrete string of codepoints 0 and 104. -/
theorem claim_C1_witness :
    StringDumper.dump (stringDumperEncoding none) [0, 104] =
      .error (.dataError
        "PostgreSQL text fields cannot contain NUL (0x00) bytes") ∧
    StringBinaryDumper.dump (stringDumperEncoding none) [0, 104]
      = .ok (utf8Encode [0, 104]) ∧
    TextLoader.load (textLoaderEncoding none) (utf8Encode [0, 104])
      = .ok (.str [0, 104]) :=
  claim_C1 [0, 104] (by decide) (by decide)

/-- C2: for every byte sequence, the BINARY-format blob dump and load are
each the identity, so their composition is the identity; the TEXT-format
escape/unescape round trip is also the identity; and the binary bytea
loader is registered for the unknown/sentinel TypeIdentifier. -/
theorem claim_C2 (bs : List Nat) (h : ∀ b ∈ bs, b < 256) :
    BytesBinaryDumper.dump bs = bs ∧
    ByteaBinaryLoader.load bs = bs ∧
    ByteaBinaryLoader.load (BytesBinaryDumper.dump bs) = bs ∧
    ByteaLoader.load (BytesDumper.dump bs) = some bs ∧
    lookupLoader INVALID_OID .BINARY = some .byteaBinaryLoaderC :=
  ⟨rfl, rfl, rfl,
    by simp [ByteaLoader.load, BytesDumper.dump, unescape_escape bs h],
    by decide⟩

/-- Witness for C2 at the concrete byte sequence 0, 255, 92, 10. -/
theorem claim_C2_witness :
    BytesBinaryDumper.dump [0, 255, 92, 10] = [0, 255, 92, 10] ∧
    ByteaBinaryLoader.load [0, 255, 92, 10] = [0, 255, 92, 10] ∧
    ByteaBinaryLoader.load (BytesBinaryDumper.dump [0, 255, 92, 10])
      = [0, 255, 92, 10] ∧
    ByteaLoader.load (BytesDumper.dump [0, 255, 92, 10])
      = some [0, 255, 92, 10] ∧
    lookupLoader INVALID_OID .BINARY = some .byteaBinaryLoaderC :=
  claim_C2 [0, 255, 92, 10] (by decide)

/-- C3: a caller error while a COPY-IN session is OPEN finalizes the
session, leaves the transaction marked failed, and the re-raised error's
message contains the caller's original error text; the original error is
re-raised unchanged unless the abort reveals a server-side error, which
takes precedence with the local message embedded. -/
theorem claim_C3 (conn : CopyConn) (sess : CopyInSession)
    (localErr : PgError) (serverErr : Option PgError)
    (_hopen : sess.state = .OPEN) :
    (finalizeOnError conn sess localErr serverErr).session.state
      = .FINALIZED ∧
    (finalizeOnError conn sess localErr serverErr).conn.transaction_status
      = .INERROR ∧
    localErr.msg <:+: (finalizeOnError conn sess localErr serverErr).raised.msg ∧
    (serverErr = none →
      (finalizeOnError conn sess localErr serverErr).raised = localErr) := by
  cases serverErr with
  | none => exact ⟨rfl, rfl, List.infix_rfl, fun _ => rfl⟩
  | some e =>
    refine ⟨rfl, rfl, ?_, by simp⟩
    exact ⟨e.msg, [], by simp [finalizeOnError]⟩

/-- Witness for C3 at concrete inputs, with and without a revealed
server-side error. -/
theorem claim_C3_witness :
    ((finalizeOnError ⟨.INTRANS⟩ ⟨.OPEN⟩ ⟨0, [110, 117]⟩ none).session.state
        = .FINALIZED ∧
      (finalizeOnError ⟨.INTRANS⟩ ⟨.OPEN⟩ ⟨0, [110, 117]⟩
          none).conn.transaction_status = .INERROR ∧
      [110, 117] <:+:
        (finalizeOnError ⟨.INTRANS⟩ ⟨.OPEN⟩ ⟨0, [110, 117]⟩ none).raised.msg ∧
      (none = (none : Option PgError) →
        (finalizeOnError ⟨.INTRANS⟩ ⟨.OPEN⟩ ⟨0, [110, 117]⟩ none).raised
          = ⟨0, [110, 117]⟩)) ∧
    ((finalizeOnError ⟨.INTRANS⟩ ⟨.OPEN⟩ ⟨0, [110, 117]⟩
          (some ⟨57014, [99]⟩)).session.state = .FINALIZED ∧
      (finalizeOnError ⟨.INTRANS⟩ ⟨.OPEN⟩ ⟨0, [110, 117]⟩
          (some ⟨57014, [99]⟩)).conn.transaction_status = .INERROR ∧
      [110, 117] <:+:
        (finalizeOnError ⟨.INTRANS⟩ ⟨.OPEN⟩ ⟨0, [110, 117]⟩
          (some ⟨57014, [99]⟩)).raised.msg ∧
      (some ⟨57014, [99]⟩ = (none : Option PgError) →
        (finalizeOnError ⟨.INTRANS⟩ ⟨.OPEN⟩ ⟨0, [110, 117]⟩
          (some ⟨57014, [99]⟩)).raised = ⟨0, [110, 117]⟩)) :=
  ⟨claim_C3 ⟨.INTRANS⟩ ⟨.OPEN⟩ ⟨0, [110, 117]⟩ none rfl,
   claim_C3 ⟨.INTRANS⟩ ⟨.OPEN⟩ ⟨0, [110, 117]⟩ (some ⟨57014, [99]⟩) rfl⟩

/-- C4: once a COPY-OUT session is exhausted, reading it returns the empty
result and leaves it exhausted, so every subsequent read also returns
empty; the first pending-length reads return exactly the pending blocks and
any further reads return empty; and iterating the session yields the same
sequence of non-empty blocks as those reads. -/
theorem claim_C4 (s : CopyOutSession) (h : ∀ b ∈ s.pending, b ≠ [])
    (k : Nat) :
    (s.pending = [] → s.read = ([], s)) ∧
    readOutputs (s.pending.length + k) s
      = s.pending ++ List.replicate k [] ∧
    s.iterBlocks = s.pending := by
  obtain ⟨p⟩ := s
  refine ⟨?_, readOutputs_pending p k, iterBlocks_pending ⟨p⟩ h⟩
  intro hp
  simp only at hp
  subst hp
  rfl

/-- Witness for C4 at a session of two pending one-byte blocks and two
extra reads past exhaustion. -/
theorem claim_C4_witness :
    ((⟨[[49], [50]]⟩ : CopyOutSession).pending = [] →
      (⟨[[49], [50]]⟩ : CopyOutSession).read = ([], ⟨[[49], [50]]⟩)) ∧
    readOutputs ((⟨[[49], [50]]⟩ : CopyOutSession).pending.length + 2)
        ⟨[[49], [50]]⟩
      = [[49], [50]] ++ List.replicate 2 [] ∧
    (⟨[[49], [50]]⟩ : CopyOutSession).iterBlocks = [[49], [50]] :=
  claim_C4 ⟨[[49], [50]]⟩ (by decide) 2

/-- C5: `TextLoader.load` returns the decoded string whenever an encoding
is recorded and the bytes decode, and returns the raw bytes unchanged in
the degenerate ASCII-only mode (recorded as no encoding); an "ascii"
connection encoding is recorded as no encoding, any other connection
encoding is used for decoding. -/
theorem claim_C5 (data : List Nat) :
    (∀ e s, decodeBytes e data = some s →
      TextLoader.load (some e) data = .ok (.str s)) ∧
    TextLoader.load none data = .ok (.bytes data) ∧
    textLoaderEncoding (some ⟨.ascii⟩) = none ∧
    (∀ conn : Conn, conn.client_encoding ≠ .ascii →
      textLoaderEncoding (some conn) = some conn.client_encoding) := by
  refine ⟨?_, rfl, rfl, ?_⟩
  · intro e s hdec
    simp [TextLoader.load, hdec]
  · intro conn hne
    simp [textLoaderEncoding, hne]

/-- Witness for C5 at concrete bytes: a two-byte utf-8 sequence decoded
under utf-8, and the same bytes returned raw in ASCII-only mode. -/
theorem claim_C5_witness :
    TextLoader.load (some .utf8) [195, 169] = .ok (.str [233]) ∧
    TextLoader.load none [195, 169] = .ok (.bytes [195, 169]) ∧
    textLoaderEncoding (some ⟨.ascii⟩) = none ∧
    textLoaderEncoding (some ⟨.latin1⟩) = some .latin1 :=
  ⟨(claim_C5 [195, 169]).1 .utf8 [233] (by decide),
   (claim_C5 [195, 169]).2.1,
   (claim_C5 [195, 169]).2.2.1,
   (claim_C5 [195, 169]).2.2.2 ⟨.latin1⟩ (by decide)⟩

/-- C6: writing the rows (10, 20, 'hello') and (40, NULL, 'world') in TEXT
format produces exactly the tab-separated, backslash-N-for-NULL,
newline-terminated wire bytes, and in BINARY format the documented layout:
file header, two frames with field count 3 and 4-byte big-endian length
prefixes with -1 for the NULL field, then the trailer field-count -1. -/
theorem claim_C6 :
    copyInTextPayload sampleRecords =
      [49, 48, 9, 50, 48, 9, 104, 101, 108, 108, 111, 10,
       52, 48, 9, 92, 78, 9, 119, 111, 114, 108, 100, 10] ∧
    copyInBinaryPayload sampleRecords =
      [80, 71, 67, 79, 80, 89, 10, 255, 13, 10, 0,
       0, 0, 0, 0, 0, 0, 0, 0,
       0, 3, 0, 0, 0, 4, 0, 0, 0, 10, 0, 0, 0, 4, 0, 0, 0, 20,
       0, 0, 0, 5, 104, 101, 108, 108, 111,
       0, 3, 0, 0, 0, 4, 0, 0, 0, 40, 255, 255, 255, 255,
       0, 0, 0, 5, 119, 111, 114, 108, 100,
       255, 255] := by
  constructor <;> rfl

/-- C7: a COPY operation that completes successfully sets the rowcount to
the server-reported count, while a COPY request rejected before the session
is consummated leaves the rowcount at the sentinel -1 regardless of the
cursor's previous rowcount. -/
theorem claim_C7 (cur : Cursor) (serverReported : Nat) (e : PgError) :
    (executeCopy cur (.ok ()) serverReported).1.rowcount
      = Int.ofNat serverReported ∧
    (executeCopy cur (.error e) serverReported).1.rowcount = -1 :=
  ⟨rfl, rfl⟩

/-- C8: `UnknownLoader` records the connection's client encoding verbatim,
with no ASCII-mode exception; its load always decodes with that encoding —
a successful load is exactly the decoded string, and undecodable input is a
hard error, never a raw-bytes fallback. -/
theorem claim_C8 (conn : Option Conn) (data : List Nat) :
    unknownLoaderEncoding (some ⟨.ascii⟩) = .ascii ∧
    (∀ c : Conn, unknownLoaderEncoding (some c) = c.client_encoding) ∧
    (decodeBytes (unknownLoaderEncoding conn) data = none →
      UnknownLoader.load (unknownLoaderEncoding conn) data
        = .error .unicodeDecodeError) ∧
    (∀ r, UnknownLoader.load (unknownLoaderEncoding conn) data = .ok r →
      decodeBytes (unknownLoaderEncoding conn) data = some r) := by
  refine ⟨rfl, fun _ => rfl, ?_, ?_⟩
  · intro hdec
    simp [UnknownLoader.load, hdec]
  · intro r hr
    unfold UnknownLoader.load at hr
    cases hdec : decodeBytes (unknownLoaderEncoding conn) data with
    | none => rw [hdec] at hr; exact absurd hr (by simp)
    | some s => rw [hdec] at hr; simp at hr; rw [hr]

/-- Witness for C8: under an ascii connection, the byte 200 is a hard
decode error and the byte 104 loads as its decoding. -/
theorem claim_C8_witness :
    unknownLoaderEncoding (some ⟨.ascii⟩) = .ascii ∧
    UnknownLoader.load (unknownLoaderEncoding (some ⟨.ascii⟩)) [200]
      = .error .unicodeDecodeError ∧
    decodeBytes (unknownLoaderEncoding (some ⟨.ascii⟩)) [104] = some [104] :=
  ⟨(claim_C8 (some ⟨.ascii⟩) [200]).1,
   (claim_C8 (some ⟨.ascii⟩) [200]).2.2.1 (by decide),
   (claim_C8 (some ⟨.ascii⟩) [104]).2.2.2 [104] (by rfl)⟩

/-- C9: over any sequence of at least one ByteaLoader construction starting
from the fresh class state, exactly one Escaping Helper is ever created
(by the first construction) and every constructed instance shares it. -/
theorem claim_C9 (n : Nat) (h : 1 ≤ n) :
    (constructLoaders n initialClassState).2.numCreated = 1 ∧
    ∀ inst ∈ (constructLoaders n initialClassState).1, inst.esc = ⟨0⟩ := by
  cases n with
  | zero => omega
  | succ m =>
    have h1 : ByteaLoader.construct initialClassState
        = (⟨⟨0⟩⟩, ⟨some ⟨0⟩, 1⟩) := rfl
    have h2 := constructLoaders_cached m ⟨0⟩ 1
    refine ⟨?_, ?_⟩
    · simp [constructLoaders, h1, h2]
    · intro inst hinst
      simp [constructLoaders, h1, h2] at hinst
      rcases hinst with h | ⟨_, h⟩ <;> rw [h]

/-- Witness for C9 at three consecutive constructions. -/
theorem claim_C9_witness :
    (constructLoaders 3 initialClassState).2.numCreated = 1 ∧
    ∀ inst ∈ (constructLoaders 3 initialClassState).1, inst.esc = ⟨0⟩ :=
  claim_C9 3 (by decide)

/-- C10: with no connection, or with a connection whose client encoding is
"ascii", the string dumpers select utf-8; the binary dump then produces the
utf-8 encoding of the value, and so does the text dump when the value has
no NUL codepoint — encode-side never passes raw bytes through or fails in
the ASCII-only mode. -/
theorem claim_C10 (connOpt : Option Conn) (s : List Nat) (hv : ValidStr s)
    (hctx : connOpt = none ∨ connOpt = some ⟨.ascii⟩) :
    stringDumperEncoding connOpt = .utf8 ∧
    StringBinaryDumper.dump (stringDumperEncoding connOpt) s
      = .ok (utf8Encode s) ∧
    (0 ∉ s → StringDumper.dump (stringDumperEncoding connOpt) s
      = .ok (utf8Encode s)) := by
  have henc : stringDumperEncoding connOpt = .utf8 := by
    rcases hctx with hc | hc <;> subst hc <;> rfl
  refine ⟨henc, ?_, ?_⟩
  · rw [henc]
    simp [StringBinaryDumper.dump, encodeStr_utf8_eq s hv]
  · intro h0
    rw [henc]
    simp [StringDumper.dump, h0, encodeStr_utf8_eq s hv]

/-- Witness for C10 at an ascii-encoded connection and the string of
codepoints 104 and 8364 (the euro sign, outside ASCII). -/
theorem claim_C10_witness :
    stringDumperEncoding (some ⟨.ascii⟩) = .utf8 ∧
    StringBinaryDumper.dump (stringDumperEncoding (some ⟨.ascii⟩))
        [104, 8364] = .ok (utf8Encode [104, 8364]) ∧
    (0 ∉ ([104, 8364] : List Nat) →
      StringDumper.dump (stringDumperEncoding (some ⟨.ascii⟩)) [104, 8364]
        = .ok (utf8Encode [104, 8364])) :=
  claim_C10 (some ⟨.ascii⟩) [104, 8364] (by decide) (Or.inr rfl)

end Psycopg3
